import Mathlib

/-!
Shallow embedding of the `hashable_refs` Rust library (`src/lib.rs`).

The library wraps `Rc<RefCell<T>>` in `HashableRef<T>` and `Weak<RefCell<T>>`
in `WeakHashableRef<T>`, giving both types `Hash`/`PartialEq` instances keyed
on the allocation address (`as_ptr`).  We model the runtime heap explicitly:
an `Alloc` record holds the strong count, weak count, dynamic borrow flag and
the (optional, dropped-when-dead) value; a `Heap` is the list of allocations
ever created, indexed by address (allocation indices are never reused, which
is sound here because every claim only compares handles that keep their
allocation record observable).  Handles carry only the address; all counter
and borrow behaviour of `Rc`, `Weak` and `RefCell` is made explicit by
state-passing functions, following the semantics the Rust standard library
documents and the spec restates in its data model and state machine.

A Rust `Hasher` is modelled by an arbitrary function `f : Nat -> Nat` from
the written allocation address to the resulting hash value: hashing a handle
feeds exactly `as_ptr` (the address) to the hasher, so with the same hasher
state the hash is `f address`.  Panics (`unwrap()` on a dead weak reference,
`RefCell` borrow conflicts) are modelled as `none` results.
-/

set_option autoImplicit false

universe u

/-- Dynamic borrow state of a `RefCell`: unborrowed, `n` outstanding shared
read guards, or one outstanding exclusive write guard. -/
inductive BorrowFlag : Type where
  | unused : BorrowFlag
  | reading (n : Nat) : BorrowFlag
  | writing : BorrowFlag
deriving DecidableEq, Repr

/-- One heap allocation produced by `Rc::new`: strong count, weak count,
the `RefCell` borrow flag, and the stored value (`none` once the last strong
reference is gone and the value has been dropped). -/
structure Alloc (T : Type u) : Type u where
  strong : Nat
  weak : Nat
  flag : BorrowFlag
  value : Option T
deriving DecidableEq, Repr

/-- The heap: every allocation ever created, indexed by its address. -/
structure Heap (T : Type u) : Type u where
  allocs : List (Alloc T)
deriving DecidableEq, Repr

/-- Model of `HashableRef<T>` (an Owning Identity Reference): a strong handle,
identified by the address of its allocation. -/
structure HashableRef (T : Type u) : Type where
  ptr : Nat
deriving DecidableEq, Repr

/-- Model of `WeakHashableRef<T>` (a Weak Identity Reference): a weak handle,
identified by the address of its allocation. -/
structure WeakHashableRef (T : Type u) : Type where
  ptr : Nat
deriving DecidableEq, Repr

variable {T : Type u}

/-- Read the allocation record at address `p`. -/
def Heap.get? (h : Heap T) (p : Nat) : Option (Alloc T) :=
  h.allocs.get? p

/-- Replace the allocation record at address `p`. -/
def Heap.set (h : Heap T) (p : Nat) (a : Alloc T) : Heap T :=
  ⟨h.allocs.set p a⟩

/-- Strong count at address `p` (`none` if no allocation record exists). -/
def Heap.strongAt (h : Heap T) (p : Nat) : Option Nat :=
  (h.get? p).map Alloc.strong

/-- Model of `HashableRef::new`: `Rc::new(RefCell::new(obj))` — a fresh allocation
with strong count 1, weak count 0, unborrowed, holding the value. -/
def HashableRef.new (v : T) (h : Heap T) : HashableRef T × Heap T :=
  (⟨h.allocs.length⟩, ⟨h.allocs ++ [⟨1, 0, .unused, some v⟩]⟩)

/-- Model of `Clone for HashableRef`: `Rc::clone` — same address, strong count + 1,
no copy of the value.  (The `none` branch is unreachable while the handle is
valid: an existing `Rc` always has an allocation record.) -/
def HashableRef.clone (r : HashableRef T) (h : Heap T) : HashableRef T × Heap T :=
  match h.get? r.ptr with
  | some a => (⟨r.ptr⟩, h.set r.ptr { a with strong := a.strong + 1 })
  | none => (⟨r.ptr⟩, h)

/-- Model of `HashableRef::downgrade`: `Rc::downgrade` — a weak handle to the same
address, weak count + 1, strong count untouched. -/
def HashableRef.downgrade (r : HashableRef T) (h : Heap T) : WeakHashableRef T × Heap T :=
  match h.get? r.ptr with
  | some a => (⟨r.ptr⟩, h.set r.ptr { a with weak := a.weak + 1 })
  | none => (⟨r.ptr⟩, h)

/-- Releasing (dropping) a strong handle: strong count − 1; when it reaches
zero the value is dropped in place.  The allocation record is kept (a fully
reclaimed allocation is unobservable, per the spec's state machine). -/
def HashableRef.drop (r : HashableRef T) (h : Heap T) : Heap T :=
  match h.get? r.ptr with
  | some a =>
      if a.strong - 1 = 0 then
        h.set r.ptr { a with strong := 0, value := none }
      else
        h.set r.ptr { a with strong := a.strong - 1 }
  | none => h

/-- Model of `WeakHashableRef::upgrade`: `Weak::upgrade` — if the allocation still has
a live strong reference, a fresh strong handle (strong count + 1), else
`none` with the heap untouched. -/
def WeakHashableRef.upgrade (w : WeakHashableRef T) (h : Heap T) :
    Option (HashableRef T) × Heap T :=
  match h.get? w.ptr with
  | some a =>
      if 0 < a.strong then
        (some ⟨w.ptr⟩, h.set w.ptr { a with strong := a.strong + 1 })
      else
        (none, h)
  | none => (none, h)

/-- Model of `Clone for WeakHashableRef`: `Weak::clone` — same address, weak
count + 1, regardless of whether the value is still alive. -/
def WeakHashableRef.clone (w : WeakHashableRef T) (h : Heap T) :
    WeakHashableRef T × Heap T :=
  match h.get? w.ptr with
  | some a => (⟨w.ptr⟩, h.set w.ptr { a with weak := a.weak + 1 })
  | none => (⟨w.ptr⟩, h)

/-- Releasing (dropping) a weak handle: weak count − 1. -/
def WeakHashableRef.drop (w : WeakHashableRef T) (h : Heap T) : Heap T :=
  match h.get? w.ptr with
  | some a => h.set w.ptr { a with weak := a.weak - 1 }
  | none => h

/-- Model of `impl Hash for HashableRef`: `self.0.as_ptr().hash(state)` — the hasher
(in a given state, modelled by `f`) is fed exactly the allocation address. -/
def HashableRef.hashWith (f : Nat → Nat) (r : HashableRef T) : Nat :=
  f r.ptr

/-- Model of `impl PartialEq for HashableRef`: `self.0.as_ptr() == other.0.as_ptr()`. -/
def HashableRef.beq (x y : HashableRef T) : Bool :=
  x.ptr == y.ptr

/-- Model of `impl Hash for WeakHashableRef`:
`self.0.upgrade().unwrap().as_ptr().hash(state)`.  The temporary strong
handle produced by `upgrade` is dropped at the end of the statement; a
failed `unwrap` is a panic, modelled as `none`. -/
def WeakHashableRef.hashWith (f : Nat → Nat) (w : WeakHashableRef T) (h : Heap T) :
    Option Nat × Heap T :=
  match w.upgrade h with
  | (some r, h1) => (some (f r.ptr), r.drop h1)
  | (none, h1) => (none, h1)

/-- Model of `impl PartialEq for WeakHashableRef`:
`self.0.upgrade().unwrap().as_ptr() == other.0.upgrade().unwrap().as_ptr()`.
Both operands are upgraded, the addresses compared, and the two temporary
strong handles dropped (in reverse creation order) at the end of the
statement; either failed `unwrap` is a panic, modelled as `none`. -/
def WeakHashableRef.beq (x y : WeakHashableRef T) (h : Heap T) :
    Option Bool × Heap T :=
  match x.upgrade h with
  | (some rx, h1) =>
      match y.upgrade h1 with
      | (some ry, h2) => (some (rx.ptr == ry.ptr), rx.drop (ry.drop h2))
      | (none, h2) => (none, h2)
  | (none, h1) => (none, h1)

/-- Model of `RefCell::borrow` on the borrow flag: fails iff an exclusive borrow is
outstanding, otherwise adds one shared read guard. -/
def BorrowFlag.tryRead : BorrowFlag → Option BorrowFlag
  | .unused => some (.reading 1)
  | .reading n => some (.reading (n + 1))
  | .writing => none

/-- Model of `RefCell::borrow_mut` on the borrow flag: fails iff any guard is
outstanding, otherwise takes the exclusive write guard. -/
def BorrowFlag.tryWrite : BorrowFlag → Option BorrowFlag
  | .unused => some .writing
  | _ => none

/-- Releasing one shared read guard. -/
def BorrowFlag.releaseRead : BorrowFlag → BorrowFlag
  | .reading (n + 1) => if n = 0 then .unused else .reading n
  | f => f

/-- Releasing the exclusive write guard. -/
def BorrowFlag.releaseWrite : BorrowFlag → BorrowFlag
  | .writing => .unused
  | f => f

/-- Model of `HashableRef::borrow`: delegate to the `RefCell` borrow flag of the
allocation; `none` models the `BorrowConflict` panic. -/
def HashableRef.borrow (r : HashableRef T) (h : Heap T) : Option (Heap T) :=
  match h.get? r.ptr with
  | some a =>
      match a.flag.tryRead with
      | some fl => some (h.set r.ptr { a with flag := fl })
      | none => none
  | none => none

/-- Model of `HashableRef::borrow_mut`: delegate to the `RefCell` borrow flag;
`none` models the `BorrowConflict` panic. -/
def HashableRef.borrow_mut (r : HashableRef T) (h : Heap T) : Option (Heap T) :=
  match h.get? r.ptr with
  | some a =>
      match a.flag.tryWrite with
      | some fl => some (h.set r.ptr { a with flag := fl })
      | none => none
  | none => none

/-- Dropping a read guard obtained from `HashableRef::borrow`. -/
def HashableRef.releaseRead (r : HashableRef T) (h : Heap T) : Heap T :=
  match h.get? r.ptr with
  | some a => h.set r.ptr { a with flag := a.flag.releaseRead }
  | none => h

/-- Dropping a write guard obtained from `HashableRef::borrow_mut`. -/
def HashableRef.releaseWrite (r : HashableRef T) (h : Heap T) : Heap T :=
  match h.get? r.ptr with
  | some a => h.set r.ptr { a with flag := a.flag.releaseWrite }
  | none => h

/- ---------------------------------------------------------------------
Identity-keyed map model (`HashMap<HashableRef<T>, V>`): an association
list keyed by `HashableRef` identity equality.  `insert` follows Rust's
`HashMap::insert`: when the key is present the value is updated and the
stored key kept; otherwise the pair is appended.
--------------------------------------------------------------------- -/

/-- Model of `HashMap::insert` with a `HashableRef` key, under identity equality. -/
def mapInsert {V : Type} : List (HashableRef T × V) → HashableRef T → V →
    List (HashableRef T × V)
  | [], k, v => [(k, v)]
  | kv :: rest, k, v =>
      if (kv.1.beq k) then (kv.1, v) :: rest else kv :: mapInsert rest k v

/-- Model of `HashMap::get` with a `HashableRef` key, under identity equality. -/
def mapGet {V : Type} : List (HashableRef T × V) → HashableRef T → Option V
  | [], _ => none
  | kv :: rest, k => if (kv.1.beq k) then some kv.2 else mapGet rest k

/-- Number of entries stored under a given key. -/
def countKey {V : Type} : List (HashableRef T × V) → HashableRef T → Nat
  | [], _ => 0
  | kv :: rest, k => (if (kv.1.beq k) then 1 else 0) + countKey rest k

/- ---------------------------------------------------------------------
Weak-handle operation traces, for the post-destruction claim: once the
strong count is zero no weak-side operation can revive the allocation.
--------------------------------------------------------------------- -/

/-- An operation performed through weak handles (the only handles that can
still reference an allocation whose every strong reference was released). -/
inductive WeakOp (T : Type u) : Type u where
  | upg (w : WeakHashableRef T) : WeakOp T
  | cln (w : WeakHashableRef T) : WeakOp T
  | rel (w : WeakHashableRef T) : WeakOp T
  | hsh (f : Nat → Nat) (w : WeakHashableRef T) : WeakOp T
  | cmp (x y : WeakHashableRef T) : WeakOp T

/-- Effect of one weak-handle operation on the heap. -/
def WeakOp.run (op : WeakOp T) (h : Heap T) : Heap T :=
  match op with
  | .upg w => (w.upgrade h).2
  | .cln w => (w.clone h).2
  | .rel w => w.drop h
  | .hsh f w => (WeakHashableRef.hashWith f w h).2
  | .cmp x y => (WeakHashableRef.beq x y h).2

/-- Run a sequence of weak-handle operations. -/
def runWeakOps : List (WeakOp T) → Heap T → Heap T
  | [], h => h
  | op :: rest, h => runWeakOps rest (op.run h)

/- =====================================================================
Helper lemmas about list indexing.
===================================================================== -/

theorem hr_get_lt {α : Type u} (l : List α) (n : Nat) (a : α)
    (h : l.get? n = some a) : n < l.length := by
  induction l generalizing n with
  | nil => simp [List.get?] at h
  | cons x xs ih =>
    cases n with
    | zero => simp
    | succ m =>
      simp only [List.get?] at h
      exact Nat.succ_lt_succ (ih m h)

theorem hr_get_set_self {α : Type u} (l : List α) (n : Nat) (a b : α)
    (h : l.get? n = some b) : (l.set n a).get? n = some a := by
  induction l generalizing n with
  | nil => simp [List.get?] at h
  | cons x xs ih =>
    cases n with
    | zero => rfl
    | succ m =>
      exact ih m h

theorem hr_get_set_ne {α : Type u} (l : List α) (m n : Nat) (a : α)
    (hmn : m ≠ n) : (l.set m a).get? n = l.get? n := by
  induction l generalizing m n with
  | nil => rfl
  | cons x xs ih =>
    cases m with
    | zero =>
      cases n with
      | zero => exact absurd rfl hmn
      | succ k => rfl
    | succ j =>
      cases n with
      | zero => rfl
      | succ k =>
        simp only [List.set, List.get?]
        exact ih j k (fun hjk => hmn (by rw [hjk]))

theorem hr_set_id {α : Type u} (l : List α) (n : Nat) (a : α)
    (h : l.get? n = some a) : l.set n a = l := by
  induction l generalizing n with
  | nil => rfl
  | cons x xs ih =>
    cases n with
    | zero =>
      simp only [List.get?] at h
      simp only [List.set]
      rw [Option.some_inj] at h
      rw [h]
    | succ m =>
      simp only [List.get?] at h
      simp only [List.set]
      rw [ih m h]

theorem hr_set_set {α : Type u} (l : List α) (n : Nat) (a b : α) :
    (l.set n a).set n b = l.set n b := by
  induction l generalizing n with
  | nil => rfl
  | cons x xs ih =>
    cases n with
    | zero => rfl
    | succ m =>
      simp only [List.set]
      rw [ih m]

theorem hr_get_append {α : Type u} (l : List α) (a : α) :
    (l ++ [a]).get? l.length = some a := by
  induction l with
  | nil => rfl
  | cons x xs ih => exact ih

theorem Heap.get?_set_self (h : Heap T) (p : Nat) (a b : Alloc T)
    (hg : h.get? p = some b) : (h.set p a).get? p = some a :=
  hr_get_set_self h.allocs p a b hg

theorem Heap.get?_set_ne (h : Heap T) (p q : Nat) (a : Alloc T)
    (hpq : p ≠ q) : (h.set p a).get? q = h.get? q :=
  hr_get_set_ne h.allocs p q a hpq

theorem Heap.set_set (h : Heap T) (p : Nat) (a b : Alloc T) :
    (h.set p a).set p b = h.set p b :=
  congrArg Heap.mk (hr_set_set h.allocs p a b)

theorem Heap.set_id (h : Heap T) (p : Nat) (a : Alloc T)
    (hg : h.get? p = some a) : h.set p a = h := by
  cases h with
  | mk l => exact congrArg Heap.mk (hr_set_id l p a hg)

/- =====================================================================
Claim theorems.
===================================================================== -/

/-- Claim C1: for every OIR `a` and `b = a.clone()`, `a == b` holds and
hashing `a` and `b` with the same hasher state produces equal hashes; OIR
equality holds iff the two handles reference the same allocation, and the
hash is a deterministic function of the allocation's address only. -/
theorem C1_clone_eq_hash (h : Heap T) (a : HashableRef T) (f : Nat → Nat) :
    HashableRef.beq a (HashableRef.clone a h).1 = true
    ∧ HashableRef.hashWith f a = HashableRef.hashWith f (HashableRef.clone a h).1
    ∧ (∀ x y : HashableRef T, HashableRef.beq x y = true ↔ x.ptr = y.ptr)
    ∧ HashableRef.hashWith f a = f a.ptr := by
  refine ⟨?_, ?_, ?_, rfl⟩
  · cases hg : h.get? a.ptr <;>
      simp [HashableRef.clone, hg, HashableRef.beq]
  · cases hg : h.get? a.ptr <;>
      simp [HashableRef.clone, hg, HashableRef.hashWith]
  · intro x y
    simp [HashableRef.beq, Nat.beq_eq]

/-- Claim C5: two OIRs obtained from independent calls to `new` are never
equal, whatever the contained values are (including equal values). -/
theorem C5_fresh_neq (h : Heap T) (v w : T) :
    HashableRef.beq (HashableRef.new v h).1
        (HashableRef.new w (HashableRef.new v h).2).1 = false
    ∧ (HashableRef.new v h).1.ptr ≠ (HashableRef.new w (HashableRef.new v h).2).1.ptr := by
  constructor
  · simp [HashableRef.new, HashableRef.beq]
  · simp [HashableRef.new]

/-- Claim C3: for every live allocation and OIR `a` to it,
`a.downgrade().upgrade()` returns `Some(b)` where `b` is identity-equal
to `a`. -/
theorem C3_downgrade_upgrade_roundtrip (h : Heap T) (a : HashableRef T)
    (al : Alloc T) (ha : h.get? a.ptr = some al) (hl : 0 < al.strong) :
    (WeakHashableRef.upgrade (HashableRef.downgrade a h).1
        (HashableRef.downgrade a h).2).1 = some ⟨a.ptr⟩
    ∧ HashableRef.beq (⟨a.ptr⟩ : HashableRef T) a = true := by
  have hset : (Heap.set h a.ptr { al with weak := al.weak + 1 }).get? a.ptr
      = some { al with weak := al.weak + 1 } :=
    Heap.get?_set_self h a.ptr _ al ha
  constructor
  · simp [HashableRef.downgrade, ha, WeakHashableRef.upgrade, hset, hl]
  · simp [HashableRef.beq]

/-- Witness for C3 on a concrete one-allocation heap. -/
theorem C3_downgrade_upgrade_roundtrip_witness :
    (WeakHashableRef.upgrade
        (HashableRef.downgrade (⟨0⟩ : HashableRef Nat) ⟨[⟨1, 0, .unused, some 7⟩]⟩).1
        (HashableRef.downgrade (⟨0⟩ : HashableRef Nat) ⟨[⟨1, 0, .unused, some 7⟩]⟩).2).1
      = some ⟨0⟩
    ∧ HashableRef.beq (⟨0⟩ : HashableRef Nat) (⟨0⟩ : HashableRef Nat) = true :=
  C3_downgrade_upgrade_roundtrip ⟨[⟨1, 0, .unused, some 7⟩]⟩ ⟨0⟩
    ⟨1, 0, .unused, some 7⟩ (by decide) (by decide)

theorem upgrade_dead (h : Heap T) (w : WeakHashableRef T)
    (hz : h.strongAt w.ptr = some 0) : w.upgrade h = (none, h) := by
  cases hg : h.get? w.ptr with
  | none => simp [Heap.strongAt, hg] at hz
  | some a =>
    have hs : a.strong = 0 := by
      simp [Heap.strongAt, hg] at hz
      exact hz
    simp [WeakHashableRef.upgrade, hg, hs]

theorem set_same_strong_strongAt (h : Heap T) (p q : Nat) (a a' : Alloc T)
    (hg : h.get? q = some a) (hs : a'.strong = a.strong) :
    (h.set q a').strongAt p = h.strongAt p := by
  by_cases hqp : q = p
  · subst hqp
    simp [Heap.strongAt, Heap.get?_set_self h q a' a hg, hg, hs]
  · simp [Heap.strongAt, Heap.get?_set_ne h q p a' hqp]

theorem upgrade_preserves_dead (w : WeakHashableRef T) (h : Heap T) (p : Nat)
    (hz : h.strongAt p = some 0) : ((w.upgrade h).2).strongAt p = some 0 := by
  by_cases hp : w.ptr = p
  · rw [upgrade_dead h w (hp ▸ hz)]
    exact hz
  · cases hg : h.get? w.ptr with
    | none => simp [WeakHashableRef.upgrade, hg]; exact hz
    | some a =>
      by_cases hs : 0 < a.strong
      · simp only [WeakHashableRef.upgrade, hg, hs, if_pos]
        show (h.set w.ptr _).strongAt p = some 0
        simp [Heap.strongAt, Heap.get?_set_ne h w.ptr p _ hp]
        simp [Heap.strongAt] at hz
        exact hz
      · simp [WeakHashableRef.upgrade, hg, hs]; exact hz

theorem weakClone_preserves_dead (w : WeakHashableRef T) (h : Heap T) (p : Nat)
    (hz : h.strongAt p = some 0) : ((w.clone h).2).strongAt p = some 0 := by
  cases hg : h.get? w.ptr with
  | none => simp [WeakHashableRef.clone, hg]; exact hz
  | some a =>
    simp only [WeakHashableRef.clone, hg]
    rw [set_same_strong_strongAt h p w.ptr a { a with weak := a.weak + 1 } hg rfl]
    exact hz

theorem weakDrop_preserves_dead (w : WeakHashableRef T) (h : Heap T) (p : Nat)
    (hz : h.strongAt p = some 0) : (w.drop h).strongAt p = some 0 := by
  cases hg : h.get? w.ptr with
  | none => simp [WeakHashableRef.drop, hg]; exact hz
  | some a =>
    simp only [WeakHashableRef.drop, hg]
    rw [set_same_strong_strongAt h p w.ptr a { a with weak := a.weak - 1 } hg rfl]
    exact hz

theorem strongDrop_preserves_dead (r : HashableRef T) (h : Heap T) (p : Nat)
    (hz : h.strongAt p = some 0) : (r.drop h).strongAt p = some 0 := by
  cases hg : h.get? r.ptr with
  | none => simp [HashableRef.drop, hg]; exact hz
  | some a =>
    by_cases hp : r.ptr = p
    · subst hp
      have hs : a.strong = 0 := by
        simp [Heap.strongAt, hg] at hz
        exact hz
      simp [HashableRef.drop, hg, hs, Heap.strongAt,
        Heap.get?_set_self h r.ptr _ a hg]
    · by_cases hd : a.strong - 1 = 0 <;>
        simp [HashableRef.drop, hg, hd, Heap.strongAt,
          Heap.get?_set_ne h r.ptr p _ hp] <;>
        · simp [Heap.strongAt] at hz; exact hz

theorem weakHash_preserves_dead (f : Nat → Nat) (w : WeakHashableRef T)
    (h : Heap T) (p : Nat) (hz : h.strongAt p = some 0) :
    ((WeakHashableRef.hashWith f w h).2).strongAt p = some 0 := by
  have h2 := upgrade_preserves_dead w h p hz
  rcases hu : w.upgrade h with ⟨o, h1⟩
  rw [hu] at h2
  cases o with
  | none => simp [WeakHashableRef.hashWith, hu]; exact h2
  | some r =>
    simp only [WeakHashableRef.hashWith, hu]
    exact strongDrop_preserves_dead r h1 p h2

theorem weakBeq_preserves_dead (x y : WeakHashableRef T)
    (h : Heap T) (p : Nat) (hz : h.strongAt p = some 0) :
    ((WeakHashableRef.beq x y h).2).strongAt p = some 0 := by
  have h1z := upgrade_preserves_dead x h p hz
  rcases hux : x.upgrade h with ⟨ox, h1⟩
  rw [hux] at h1z
  cases ox with
  | none => simp [WeakHashableRef.beq, hux]; exact h1z
  | some rx =>
    have h2z := upgrade_preserves_dead y h1 p h1z
    rcases huy : y.upgrade h1 with ⟨oy, h2⟩
    rw [huy] at h2z
    cases oy with
    | none => simp [WeakHashableRef.beq, hux, huy]; exact h2z
    | some ry =>
      simp only [WeakHashableRef.beq, hux, huy]
      exact strongDrop_preserves_dead rx _ p
        (strongDrop_preserves_dead ry h2 p h2z)

theorem weakOp_preserves_dead (op : WeakOp T) (h : Heap T) (p : Nat)
    (hz : h.strongAt p = some 0) : (op.run h).strongAt p = some 0 := by
  cases op with
  | upg w => exact upgrade_preserves_dead w h p hz
  | cln w => exact weakClone_preserves_dead w h p hz
  | rel w => exact weakDrop_preserves_dead w h p hz
  | hsh f w => exact weakHash_preserves_dead f w h p hz
  | cmp x y => exact weakBeq_preserves_dead x y h p hz

theorem runWeakOps_preserves_dead (ops : List (WeakOp T)) (h : Heap T) (p : Nat)
    (hz : h.strongAt p = some 0) : (runWeakOps ops h).strongAt p = some 0 := by
  induction ops generalizing h with
  | nil => exact hz
  | cons op rest ih => exact ih (op.run h) (weakOp_preserves_dead op h p hz)

/-- Claim C4: once the strong count of an allocation has reached zero, every
subsequent `upgrade()` on any WIR to it — after any further sequence of
weak-handle operations — returns `none` deterministically, leaving the heap
untouched and never failing fatally (the result type is a plain `Option`);
while a strong reference is live, `upgrade()` succeeds with a new OIR that
increments the strong count. -/
theorem C4_upgrade_after_death (h : Heap T) (w : WeakHashableRef T)
    (a : Alloc T) (ha : h.get? w.ptr = some a) :
    (a.strong = 0 →
        (WeakHashableRef.upgrade w h).2 = h
        ∧ ∀ ops : List (WeakOp T),
            (WeakHashableRef.upgrade w (runWeakOps ops h)).1 = none)
    ∧ (0 < a.strong →
        (WeakHashableRef.upgrade w h).1 = some ⟨w.ptr⟩
        ∧ Heap.strongAt (WeakHashableRef.upgrade w h).2 w.ptr = some (a.strong + 1)) := by
  constructor
  · intro hz0
    have hz : h.strongAt w.ptr = some 0 := by
      simp [Heap.strongAt, ha, hz0]
    constructor
    · rw [upgrade_dead h w hz]
    · intro ops
      rw [upgrade_dead (runWeakOps ops h) w
        (runWeakOps_preserves_dead ops h w.ptr hz)]
  · intro hs
    constructor
    · simp [WeakHashableRef.upgrade, ha, hs]
    · simp [WeakHashableRef.upgrade, ha, hs, Heap.strongAt,
        Heap.get?_set_self h w.ptr _ a ha]

/-- Witness for C4: a dead single-allocation heap (strong 0, weak 1) and a
live one. -/
theorem C4_upgrade_after_death_witness :
    (WeakHashableRef.upgrade (⟨0⟩ : WeakHashableRef Nat)
        ⟨[⟨0, 1, .unused, none⟩]⟩).2 = ⟨[⟨0, 1, .unused, none⟩]⟩
    ∧ (WeakHashableRef.upgrade (⟨0⟩ : WeakHashableRef Nat)
        (runWeakOps [WeakOp.upg ⟨0⟩, WeakOp.cln ⟨0⟩]
          ⟨[⟨0, 1, .unused, none⟩]⟩)).1 = none
    ∧ (WeakHashableRef.upgrade (⟨0⟩ : WeakHashableRef Nat)
        ⟨[⟨1, 0, .unused, some 7⟩]⟩).1 = some ⟨0⟩ :=
  ⟨((C4_upgrade_after_death ⟨[⟨0, 1, .unused, none⟩]⟩ ⟨0⟩
      ⟨0, 1, .unused, none⟩ (by decide)).1 (by decide)).1,
   ((C4_upgrade_after_death ⟨[⟨0, 1, .unused, none⟩]⟩ ⟨0⟩
      ⟨0, 1, .unused, none⟩ (by decide)).1 (by decide)).2
      [WeakOp.upg ⟨0⟩, WeakOp.cln ⟨0⟩],
   ((C4_upgrade_after_death ⟨[⟨1, 0, .unused, some 7⟩]⟩ ⟨0⟩
      ⟨1, 0, .unused, some 7⟩ (by decide)).2 (by decide)).1⟩

/-- Claim C2: hashing or comparing WIRs upgrades the operand(s) and compares
the upgraded allocation addresses; when every operand is upgradeable the
panic branch is unreachable, hashing yields the hash of the address and
equality equals address equality of the upgraded allocations; when any
operand cannot upgrade, the operation is the fatal `unwrap` panic
(modelled as `none`). -/
theorem C2_weak_hash_eq_precondition (h : Heap T) (x y : WeakHashableRef T)
    (f : Nat → Nat) (ax ay : Alloc T)
    (hx : h.get? x.ptr = some ax) (hy : h.get? y.ptr = some ay) :
    (0 < ax.strong → (WeakHashableRef.hashWith f x h).1 = some (f x.ptr))
    ∧ (0 < ax.strong → 0 < ay.strong →
        (WeakHashableRef.beq x y h).1 = some (x.ptr == y.ptr))
    ∧ (ax.strong = 0 →
        (WeakHashableRef.hashWith f x h).1 = none
        ∧ (WeakHashableRef.beq x y h).1 = none)
    ∧ (0 < ax.strong → ay.strong = 0 →
        (WeakHashableRef.beq x y h).1 = none) := by
  refine ⟨?_, ?_, ?_, ?_⟩
  · intro hsx
    simp [WeakHashableRef.hashWith, WeakHashableRef.upgrade, hx, hsx]
  · intro hsx hsy
    by_cases hp : x.ptr = y.ptr
    · have h1get : (Heap.set h x.ptr { ax with strong := ax.strong + 1 }).get? y.ptr
          = some { ax with strong := ax.strong + 1 } := by
        rw [← hp]
        exact Heap.get?_set_self h x.ptr _ ax hx
      simp [WeakHashableRef.beq, WeakHashableRef.upgrade, hx, hsx, h1get]
    · have h1get : (Heap.set h x.ptr { ax with strong := ax.strong + 1 }).get? y.ptr
          = some ay := by
        rw [Heap.get?_set_ne h x.ptr y.ptr _ hp]
        exact hy
      simp [WeakHashableRef.beq, WeakHashableRef.upgrade, hx, hsx, h1get, hsy]
  · intro hz
    constructor
    · simp [WeakHashableRef.hashWith, WeakHashableRef.upgrade, hx, hz]
    · simp [WeakHashableRef.beq, WeakHashableRef.upgrade, hx, hz]
  · intro hsx hzy
    by_cases hp : x.ptr = y.ptr
    · rw [hp] at hx
      rw [hx] at hy
      have hxy : ax = ay := by
        injection hy
      rw [hxy] at hsx
      omega
    · have h1get : (Heap.set h x.ptr { ax with strong := ax.strong + 1 }).get? y.ptr
          = some ay := by
        rw [Heap.get?_set_ne h x.ptr y.ptr _ hp]
        exact hy
      simp [WeakHashableRef.beq, WeakHashableRef.upgrade, hx, hsx, h1get, hzy]

/-- Witness for C2: two live allocations (addresses 0, 1) and a dead one. -/
theorem C2_weak_hash_eq_precondition_witness :
    (WeakHashableRef.hashWith id (⟨0⟩ : WeakHashableRef Nat)
        ⟨[⟨1, 0, .unused, some 1⟩, ⟨2, 1, .unused, some 2⟩]⟩).1 = some 0
    ∧ (WeakHashableRef.beq (⟨0⟩ : WeakHashableRef Nat) ⟨1⟩
        ⟨[⟨1, 0, .unused, some 1⟩, ⟨2, 1, .unused, some 2⟩]⟩).1 = some false
    ∧ (WeakHashableRef.hashWith id (⟨0⟩ : WeakHashableRef Nat)
        ⟨[⟨0, 1, .unused, none⟩]⟩).1 = none
    ∧ (WeakHashableRef.beq (⟨0⟩ : WeakHashableRef Nat) ⟨0⟩
        ⟨[⟨0, 1, .unused, none⟩]⟩).1 = none :=
  ⟨(C2_weak_hash_eq_precondition ⟨[⟨1, 0, .unused, some 1⟩, ⟨2, 1, .unused, some 2⟩]⟩
      ⟨0⟩ ⟨1⟩ id ⟨1, 0, .unused, some 1⟩ ⟨2, 1, .unused, some 2⟩
      (by decide) (by decide)).1 (by decide),
   (C2_weak_hash_eq_precondition ⟨[⟨1, 0, .unused, some 1⟩, ⟨2, 1, .unused, some 2⟩]⟩
      ⟨0⟩ ⟨1⟩ id ⟨1, 0, .unused, some 1⟩ ⟨2, 1, .unused, some 2⟩
      (by decide) (by decide)).2.1 (by decide) (by decide),
   ((C2_weak_hash_eq_precondition ⟨[⟨0, 1, .unused, none⟩]⟩
      ⟨0⟩ ⟨0⟩ id ⟨0, 1, .unused, none⟩ ⟨0, 1, .unused, none⟩
      (by decide) (by decide)).2.2.1 (by decide)).1,
   ((C2_weak_hash_eq_precondition ⟨[⟨0, 1, .unused, none⟩]⟩
      ⟨0⟩ ⟨0⟩ id ⟨0, 1, .unused, none⟩ ⟨0, 1, .unused, none⟩
      (by decide) (by decide)).2.2.1 (by decide)).2⟩

/-- Claim C7: `borrow()` fails with a BorrowConflict iff an exclusive borrow
is outstanding on the allocation (further read guards are permitted while
read guards are outstanding), `borrow_mut()` fails iff any other guard is
outstanding, and releasing the write guard restores the unborrowed state so
a subsequent `borrow_mut()` succeeds. -/
theorem C7_borrow_discipline (h : Heap T) (r : HashableRef T) (a : Alloc T)
    (ha : h.get? r.ptr = some a) :
    (HashableRef.borrow r h = none ↔ a.flag = .writing)
    ∧ (HashableRef.borrow_mut r h = none ↔ a.flag ≠ .unused)
    ∧ (∀ h' : Heap T, HashableRef.borrow r h = some h' →
        (HashableRef.borrow r h').isSome = true)
    ∧ (∀ h' : Heap T, HashableRef.borrow_mut r h = some h' →
        (HashableRef.releaseWrite r h').get? r.ptr = some { a with flag := .unused }
        ∧ (HashableRef.borrow_mut r
            (HashableRef.releaseWrite r h')).isSome = true) := by
  refine ⟨?_, ?_, ?_, ?_⟩
  · cases hf : a.flag <;>
      simp [HashableRef.borrow, ha, BorrowFlag.tryRead, hf]
  · cases hf : a.flag <;>
      simp [HashableRef.borrow_mut, ha, BorrowFlag.tryWrite, hf]
  · intro h' hb
    cases hf : a.flag with
    | unused =>
      simp only [HashableRef.borrow, ha, hf, BorrowFlag.tryRead,
        Option.some.injEq] at hb
      rw [← hb]
      simp [HashableRef.borrow,
        Heap.get?_set_self h r.ptr { a with flag := .reading 1 } a ha,
        BorrowFlag.tryRead]
    | reading n =>
      simp only [HashableRef.borrow, ha, hf, BorrowFlag.tryRead,
        Option.some.injEq] at hb
      rw [← hb]
      simp [HashableRef.borrow,
        Heap.get?_set_self h r.ptr { a with flag := .reading (n + 1) } a ha,
        BorrowFlag.tryRead]
    | writing =>
      simp [HashableRef.borrow, ha, hf, BorrowFlag.tryRead] at hb
  · intro h' hb
    have hf : a.flag = .unused := by
      cases hfc : a.flag with
      | unused => rfl
      | reading n =>
        simp [HashableRef.borrow_mut, ha, hfc, BorrowFlag.tryWrite] at hb
      | writing =>
        simp [HashableRef.borrow_mut, ha, hfc, BorrowFlag.tryWrite] at hb
    simp only [HashableRef.borrow_mut, ha, hf, BorrowFlag.tryWrite,
      Option.some.injEq] at hb
    rw [← hb]
    have hget : (Heap.set h r.ptr { a with flag := .writing }).get? r.ptr
        = some { a with flag := .writing } :=
      Heap.get?_set_self h r.ptr { a with flag := .writing } a ha
    constructor
    · simp only [HashableRef.releaseWrite, hget, BorrowFlag.releaseWrite]
      rw [Heap.set_set]
      exact Heap.get?_set_self h r.ptr { a with flag := .unused } a ha
    · simp only [HashableRef.releaseWrite, hget, BorrowFlag.releaseWrite]
      rw [Heap.set_set]
      simp [HashableRef.borrow_mut,
        Heap.get?_set_self h r.ptr { a with flag := .unused } a ha,
        BorrowFlag.tryWrite]

/-- Witness for C7 on concrete heaps in each borrow state. -/
theorem C7_borrow_discipline_witness :
    (HashableRef.borrow (⟨0⟩ : HashableRef Nat)
        ⟨[⟨1, 0, .writing, some 3⟩]⟩ = none ↔ (BorrowFlag.writing = .writing))
    ∧ (HashableRef.borrow_mut (⟨0⟩ : HashableRef Nat)
        ⟨[⟨1, 0, .reading 1, some 3⟩]⟩ = none ↔ (BorrowFlag.reading 1 ≠ .unused))
    ∧ (HashableRef.borrow (⟨0⟩ : HashableRef Nat)
        ⟨[⟨1, 0, .reading 1, some 3⟩]⟩).isSome = true
    ∧ (HashableRef.releaseWrite (⟨0⟩ : HashableRef Nat)
        ⟨[⟨1, 0, .writing, some 3⟩]⟩).get? 0 = some ⟨1, 0, .unused, some 3⟩
    ∧ (HashableRef.borrow_mut (⟨0⟩ : HashableRef Nat)
        (HashableRef.releaseWrite (⟨0⟩ : HashableRef Nat)
          ⟨[⟨1, 0, .writing, some 3⟩]⟩)).isSome = true :=
  ⟨(C7_borrow_discipline ⟨[⟨1, 0, .writing, some 3⟩]⟩ ⟨0⟩
      ⟨1, 0, .writing, some 3⟩ (by decide)).1,
   (C7_borrow_discipline ⟨[⟨1, 0, .reading 1, some 3⟩]⟩ ⟨0⟩
      ⟨1, 0, .reading 1, some 3⟩ (by decide)).2.1,
   (C7_borrow_discipline ⟨[⟨1, 0, .unused, some 3⟩]⟩ ⟨0⟩
      ⟨1, 0, .unused, some 3⟩ (by decide)).2.2.1
      ⟨[⟨1, 0, .reading 1, some 3⟩]⟩ (by decide),
   ((C7_borrow_discipline ⟨[⟨1, 0, .unused, some 3⟩]⟩ ⟨0⟩
      ⟨1, 0, .unused, some 3⟩ (by decide)).2.2.2
      ⟨[⟨1, 0, .writing, some 3⟩]⟩ (by decide)).1,
   ((C7_borrow_discipline ⟨[⟨1, 0, .unused, some 3⟩]⟩ ⟨0⟩
      ⟨1, 0, .unused, some 3⟩ (by decide)).2.2.2
      ⟨[⟨1, 0, .writing, some 3⟩]⟩ (by decide)).2⟩

/-- Claim C8: `new` creates a fresh allocation with strong count 1 and weak
count 0; cloning an OIR increments only the strong count (same address, no
copy of the value, no new allocation); `downgrade` increments only the weak
count; cloning a WIR increments the weak count and succeeds whether or not
the allocation is still alive. -/
theorem C8_counter_effects (v : T) (h : Heap T) (r : HashableRef T)
    (w : WeakHashableRef T) (a b : Alloc T) :
    ((HashableRef.new v h).2.get? (HashableRef.new v h).1.ptr
        = some ⟨1, 0, .unused, some v⟩)
    ∧ (h.get? r.ptr = some a →
        (HashableRef.clone r h).1 = ⟨r.ptr⟩
        ∧ ((HashableRef.clone r h).2).get? r.ptr
            = some { a with strong := a.strong + 1 }
        ∧ ((HashableRef.clone r h).2).allocs.length = h.allocs.length
        ∧ (HashableRef.downgrade r h).1 = ⟨r.ptr⟩
        ∧ ((HashableRef.downgrade r h).2).get? r.ptr
            = some { a with weak := a.weak + 1 })
    ∧ (h.get? w.ptr = some b →
        (WeakHashableRef.clone w h).1 = ⟨w.ptr⟩
        ∧ ((WeakHashableRef.clone w h).2).get? w.ptr
            = some { b with weak := b.weak + 1 }) := by
  refine ⟨?_, ?_, ?_⟩
  · exact hr_get_append h.allocs ⟨1, 0, .unused, some v⟩
  · intro ha
    refine ⟨?_, ?_, ?_, ?_, ?_⟩
    · simp [HashableRef.clone, ha]
    · simp only [HashableRef.clone, ha]
      exact Heap.get?_set_self h r.ptr { a with strong := a.strong + 1 } a ha
    · simp [HashableRef.clone, ha, Heap.set]
    · simp [HashableRef.downgrade, ha]
    · simp only [HashableRef.downgrade, ha]
      exact Heap.get?_set_self h r.ptr { a with weak := a.weak + 1 } a ha
  · intro hb
    refine ⟨?_, ?_⟩
    · simp [WeakHashableRef.clone, hb]
    · simp only [WeakHashableRef.clone, hb]
      exact Heap.get?_set_self h w.ptr { b with weak := b.weak + 1 } b hb

/-- Witness for C8: one live and one dead allocation. -/
theorem C8_counter_effects_witness :
    ((HashableRef.new 9 (⟨[]⟩ : Heap Nat)).2.get?
        (HashableRef.new 9 (⟨[]⟩ : Heap Nat)).1.ptr = some ⟨1, 0, .unused, some 9⟩)
    ∧ ((HashableRef.clone (⟨0⟩ : HashableRef Nat)
        ⟨[⟨1, 2, .unused, some 5⟩]⟩).2).get? 0 = some ⟨2, 2, .unused, some 5⟩
    ∧ ((HashableRef.downgrade (⟨0⟩ : HashableRef Nat)
        ⟨[⟨1, 2, .unused, some 5⟩]⟩).2).get? 0 = some ⟨1, 3, .unused, some 5⟩
    ∧ ((WeakHashableRef.clone (⟨0⟩ : WeakHashableRef Nat)
        ⟨[⟨0, 2, .unused, none⟩]⟩).2).get? 0 = some ⟨0, 3, .unused, none⟩ :=
  ⟨(C8_counter_effects 9 ⟨[]⟩ ⟨0⟩ ⟨0⟩ ⟨1, 0, .unused, some 9⟩
      ⟨1, 0, .unused, some 9⟩).1,
   ((C8_counter_effects 5 ⟨[⟨1, 2, .unused, some 5⟩]⟩ ⟨0⟩ ⟨0⟩
      ⟨1, 2, .unused, some 5⟩ ⟨1, 2, .unused, some 5⟩).2.1 (by decide)).2.1,
   ((C8_counter_effects 5 ⟨[⟨1, 2, .unused, some 5⟩]⟩ ⟨0⟩ ⟨0⟩
      ⟨1, 2, .unused, some 5⟩ ⟨1, 2, .unused, some 5⟩).2.1 (by decide)).2.2.2.2,
   ((C8_counter_effects 0 ⟨[⟨0, 2, .unused, none⟩]⟩ ⟨0⟩ ⟨0⟩
      ⟨0, 2, .unused, none⟩ ⟨0, 2, .unused, none⟩).2.2 (by decide)).2⟩

theorem drop_undoes_upgrade (h : Heap T) (p : Nat) (a : Alloc T)
    (ha : h.get? p = some a) (hl : 0 < a.strong) :
    HashableRef.drop ⟨p⟩ (h.set p { a with strong := a.strong + 1 }) = h := by
  obtain ⟨s, wk, fl, vl⟩ := a
  have hget : (h.set p { strong := s + 1, weak := wk, flag := fl, value := vl }).get? p
      = some { strong := s + 1, weak := wk, flag := fl, value := vl } :=
    Heap.get?_set_self h p _ _ ha
  have hs0 : 0 < s := hl
  have hne : ¬(s = 0) := by omega
  simp only [HashableRef.drop, hget, Nat.add_sub_cancel]
  rw [if_neg hne, Heap.set_set]
  exact Heap.set_id h p _ ha

theorem upgrade_live (h : Heap T) (w : WeakHashableRef T) (a : Alloc T)
    (ha : h.get? w.ptr = some a) (hl : 0 < a.strong) :
    w.upgrade h = (some ⟨w.ptr⟩, h.set w.ptr { a with strong := a.strong + 1 }) := by
  simp [WeakHashableRef.upgrade, ha, hl]

/-- Claim C9: for every live OIR `a`, hashing the freshly downgraded WIR
produces exactly the hash of `a` itself, and any two WIRs obtained by
downgrading identity-equal OIRs (in any heap state in which the allocation
is live) compare equal — so the downgrades work interchangeably as the same
map key. -/
theorem C9_cross_type_hash (f : Nat → Nat) (h : Heap T) (a : HashableRef T)
    (al : Alloc T) (ha : h.get? a.ptr = some al) (hl : 0 < al.strong) :
    (HashableRef.downgrade a h).1.ptr = a.ptr
    ∧ (WeakHashableRef.hashWith f (HashableRef.downgrade a h).1
        (HashableRef.downgrade a h).2).1 = some (HashableRef.hashWith f a)
    ∧ (∀ (b : HashableRef T) (wa wb : WeakHashableRef T) (h' : Heap T)
        (bl : Alloc T),
        HashableRef.beq a b = true → wa.ptr = a.ptr → wb.ptr = b.ptr →
        h'.get? a.ptr = some bl → 0 < bl.strong →
        (WeakHashableRef.beq wa wb h').1 = some true) := by
  refine ⟨?_, ?_, ?_⟩
  · simp [HashableRef.downgrade, ha]
  · have hget : (Heap.set h a.ptr { al with weak := al.weak + 1 }).get? a.ptr
        = some { al with weak := al.weak + 1 } :=
      Heap.get?_set_self h a.ptr _ al ha
    simp [HashableRef.downgrade, ha, WeakHashableRef.hashWith,
      WeakHashableRef.upgrade, hget, hl, HashableRef.hashWith]
  · intro b wa wb h' bl heq hwa hwb hb' hbl
    have hab : a.ptr = b.ptr := by
      simpa [HashableRef.beq] using heq
    have h1get : (Heap.set h' a.ptr { bl with strong := bl.strong + 1 }).get? a.ptr
        = some { bl with strong := bl.strong + 1 } :=
      Heap.get?_set_self h' a.ptr _ bl hb'
    simp [WeakHashableRef.beq, WeakHashableRef.upgrade, hwa, hwb, ← hab,
      hb', hbl, h1get]

/-- Witness for C9 on a single live allocation. -/
theorem C9_cross_type_hash_witness :
    (HashableRef.downgrade (⟨0⟩ : HashableRef Nat)
        ⟨[⟨1, 0, .unused, some 4⟩]⟩).1.ptr = 0
    ∧ (WeakHashableRef.hashWith id
        (HashableRef.downgrade (⟨0⟩ : HashableRef Nat) ⟨[⟨1, 0, .unused, some 4⟩]⟩).1
        (HashableRef.downgrade (⟨0⟩ : HashableRef Nat) ⟨[⟨1, 0, .unused, some 4⟩]⟩).2).1
        = some 0
    ∧ (WeakHashableRef.beq (⟨0⟩ : WeakHashableRef Nat) ⟨0⟩
        ⟨[⟨1, 0, .unused, some 4⟩]⟩).1 = some true :=
  ⟨(C9_cross_type_hash id ⟨[⟨1, 0, .unused, some 4⟩]⟩ ⟨0⟩
      ⟨1, 0, .unused, some 4⟩ (by decide) (by decide)).1,
   (C9_cross_type_hash id ⟨[⟨1, 0, .unused, some 4⟩]⟩ ⟨0⟩
      ⟨1, 0, .unused, some 4⟩ (by decide) (by decide)).2.1,
   (C9_cross_type_hash id ⟨[⟨1, 0, .unused, some 4⟩]⟩ ⟨0⟩
      ⟨1, 0, .unused, some 4⟩ (by decide) (by decide)).2.2 ⟨0⟩ ⟨0⟩ ⟨0⟩
      ⟨[⟨1, 0, .unused, some 4⟩]⟩ ⟨1, 0, .unused, some 4⟩
      (by decide) rfl rfl (by decide) (by decide)⟩

/-- Claim C10: hashing or comparing OIRs touches no state at all (the
embedded operations `HashableRef.hashWith` and `HashableRef.beq` are pure
functions of the handles, as the Rust implementations read only `as_ptr`),
and when both operands are live, hashing or comparing WIRs returns the heap
completely unchanged — strong count, weak count, borrow flag and value
included: the temporary upgrade inside the operation is released before it
returns. -/
theorem C10_frame (f : Nat → Nat) (h : Heap T) (x y : WeakHashableRef T)
    (ax ay : Alloc T)
    (hx : h.get? x.ptr = some ax) (hlx : 0 < ax.strong)
    (hy : h.get? y.ptr = some ay) (hly : 0 < ay.strong) :
    (WeakHashableRef.hashWith f x h).2 = h
    ∧ (WeakHashableRef.beq x y h).2 = h
    ∧ (∀ h' : Heap T, (HashableRef.hashWith f (⟨x.ptr⟩ : HashableRef T), h')
        = (f x.ptr, h')) := by
  refine ⟨?_, ?_, fun h' => rfl⟩
  · simp only [WeakHashableRef.hashWith, upgrade_live h x ax hx hlx]
    exact drop_undoes_upgrade h x.ptr ax hx hlx
  · by_cases hp : y.ptr = x.ptr
    · have hxy : ay = ax := by
        rw [hp] at hy
        rw [hx] at hy
        injection hy with hv
        exact hv.symm
      subst hxy
      have h1get : (Heap.set h x.ptr { ay with strong := ay.strong + 1 }).get? y.ptr
          = some { ay with strong := ay.strong + 1 } := by
        rw [hp]
        exact Heap.get?_set_self h x.ptr _ ay hx
      simp only [WeakHashableRef.beq, upgrade_live h x ay hx hlx,
        upgrade_live _ y _ h1get (by simp)]
      have hdy : HashableRef.drop ⟨y.ptr⟩
          ((Heap.set h x.ptr { ay with strong := ay.strong + 1 }).set y.ptr
            { strong := ay.strong + 1 + 1, weak := ay.weak, flag := ay.flag,
              value := ay.value })
          = Heap.set h x.ptr { ay with strong := ay.strong + 1 } := by
        have := drop_undoes_upgrade
          (Heap.set h x.ptr { ay with strong := ay.strong + 1 }) y.ptr
          { ay with strong := ay.strong + 1 } h1get (by simp)
        simpa using this
      rw [hdy]
      exact drop_undoes_upgrade h x.ptr ay hx hlx
    · have h1get : (Heap.set h x.ptr { ax with strong := ax.strong + 1 }).get? y.ptr
          = some ay := by
        rw [Heap.get?_set_ne h x.ptr y.ptr _ (fun hq => hp hq.symm)]
        exact hy
      simp only [WeakHashableRef.beq, upgrade_live h x ax hx hlx,
        upgrade_live _ y _ h1get hly]
      rw [drop_undoes_upgrade _ y.ptr ay h1get hly]
      exact drop_undoes_upgrade h x.ptr ax hx hlx

/-- Witness for C10 on a heap with two live allocations. -/
theorem C10_frame_witness :
    (WeakHashableRef.hashWith id (⟨0⟩ : WeakHashableRef Nat)
        ⟨[⟨1, 1, .unused, some 1⟩, ⟨3, 0, .reading 1, some 2⟩]⟩).2
      = ⟨[⟨1, 1, .unused, some 1⟩, ⟨3, 0, .reading 1, some 2⟩]⟩
    ∧ (WeakHashableRef.beq (⟨0⟩ : WeakHashableRef Nat) ⟨1⟩
        ⟨[⟨1, 1, .unused, some 1⟩, ⟨3, 0, .reading 1, some 2⟩]⟩).2
      = ⟨[⟨1, 1, .unused, some 1⟩, ⟨3, 0, .reading 1, some 2⟩]⟩ :=
  ⟨(C10_frame id ⟨[⟨1, 1, .unused, some 1⟩, ⟨3, 0, .reading 1, some 2⟩]⟩
      ⟨0⟩ ⟨1⟩ ⟨1, 1, .unused, some 1⟩ ⟨3, 0, .reading 1, some 2⟩
      (by decide) (by decide) (by decide) (by decide)).1,
   (C10_frame id ⟨[⟨1, 1, .unused, some 1⟩, ⟨3, 0, .reading 1, some 2⟩]⟩
      ⟨0⟩ ⟨1⟩ ⟨1, 1, .unused, some 1⟩ ⟨3, 0, .reading 1, some 2⟩
      (by decide) (by decide) (by decide) (by decide)).2.1⟩

theorem hashref_beq_refl (k : HashableRef T) : HashableRef.beq k k = true := by
  simp [HashableRef.beq]

theorem countKey_insert {V : Type} (m : List (HashableRef T × V))
    (k : HashableRef T) (v : V) :
    countKey (mapInsert m k v) k
      = if countKey m k = 0 then 1 else countKey m k := by
  induction m with
  | nil => simp [mapInsert, countKey, hashref_beq_refl]
  | cons kv rest ih =>
    cases hb : HashableRef.beq kv.1 k with
    | true =>
      simp only [mapInsert, hb, if_true, countKey]
      split <;> omega
    | false =>
      simp only [mapInsert, hb, if_false, countKey, ih]
      simp

theorem mapGet_insert {V : Type} (m : List (HashableRef T × V))
    (k : HashableRef T) (v : V) :
    mapGet (mapInsert m k v) k = some v := by
  induction m with
  | nil => simp [mapInsert, mapGet, hashref_beq_refl]
  | cons kv rest ih =>
    cases hb : HashableRef.beq kv.1 k with
    | true => simp [mapInsert, hb, mapGet]
    | false => simp [mapInsert, hb, mapGet, ih]

/-- Claim C6: in an identity-keyed map, inserting under OIR key `A` twice
with different values leaves exactly one entry for that key, and looking the
key up afterwards returns the most recently inserted value. -/
theorem C6_map_overwrite {V : Type} (m : List (HashableRef T × V)) (k : HashableRef T)
    (v1 v2 : V) (hm : countKey m k ≤ 1) :
    countKey (mapInsert (mapInsert m k v1) k v2) k = 1
    ∧ mapGet (mapInsert (mapInsert m k v1) k v2) k = some v2 := by
  constructor
  · rw [countKey_insert, countKey_insert]
    by_cases h0 : countKey m k = 0
    · simp [h0]
    · have h1 : countKey m k = 1 := by omega
      simp [h1]
  · exact mapGet_insert (mapInsert m k v1) k v2

/-- Witness for C6: double insert into the empty identity-keyed map. -/
theorem C6_map_overwrite_witness :
    countKey (mapInsert (mapInsert ([] : List (HashableRef Nat × Nat)) ⟨0⟩ 1) ⟨0⟩ 2) ⟨0⟩ = 1
    ∧ mapGet (mapInsert (mapInsert ([] : List (HashableRef Nat × Nat)) ⟨0⟩ 1) ⟨0⟩ 2) ⟨0⟩
        = some 2 :=
  C6_map_overwrite [] ⟨0⟩ 1 2 (by decide)
